import Mathlib

/-!
Verification development for the trip-planning backend.

The parser module (SimpleTripParser in trip_parser_simple.py) and the plan
endpoint (plan_trip in trip_planner.py) are embedded shallowly: queries are
lists of characters, the regular expressions of the source are modelled as
leftmost-first position scans with the source's alternation order and the
greedy/backtracking behaviour each concrete pattern exhibits, and the POI
provider is an abstract function supplied to the endpoint. Character classes
are the ASCII parts of the Python classes; the city list, the stoplist and the
example queries are all ASCII, so the restriction is exact on every string the
theorems touch.
-/

namespace Iterary

/-- ASCII whitespace matched by the regex class \s:
space, tab, newline, carriage return, vertical tab, form feed. -/
def isWS (c : Char) : Bool :=
  c == ' ' || c == '\t' || c == '\n' || c == '\r' || c == '\x0b' || c == '\x0c'

/-- Word characters of the regex class \w restricted to ASCII:
letters, digits and the underscore. -/
def isWordChar (c : Char) : Bool := c.isAlphanum || c == '_'

/-- Lowercase a list of characters, as Python str.lower applied to the query
and to the city names (ASCII case folding). -/
def lowerStr (s : List Char) : List Char := s.map Char.toLower

/-- Consume a literal from the front of a string, returning the remainder on success. -/
def startsWithRest : List Char → List Char → Option (List Char)
  | [], s => some s
  | _ :: _, [] => none
  | a :: as, b :: bs => if a == b then startsWithRest as bs else none

/-- Substring containment (Python operator in), scanning every start position. -/
def containsSub (needle : List Char) : List Char → Bool
  | [] => (startsWithRest needle []).isSome
  | c :: t => (startsWithRest needle (c :: t)).isSome || containsSub needle t

/-- Longest prefix of characters satisfying a predicate, with the remaining suffix. -/
def takeRun (p : Char → Bool) : List Char → List Char × List Char
  | [] => ([], [])
  | c :: rest =>
    if p c then
      match takeRun p rest with
      | (run, t) => (c :: run, t)
    else ([], c :: rest)

/-- Greedy match of one or more characters of a class (regex +); fails on an empty run. -/
def matchPlus (p : Char → Bool) (s : List Char) : Option (List Char × List Char) :=
  match takeRun p s with
  | ([], _) => none
  | (c :: run, t) => some (c :: run, t)

/-- Word-boundary test between two neighbouring characters (regex \b):
exactly one side is a word character, an absent side counting as non-word. -/
def atBoundary (a b : Option Char) : Bool :=
  (match a with | some c => isWordChar c | none => false) !=
  (match b with | some c => isWordChar c | none => false)

/-- Match of the needle at the current position with word boundaries on both sides. -/
def wordBoundedHere (needle : List Char) (prev : Option Char) (hay : List Char) : Bool :=
  atBoundary prev hay.head? &&
    match startsWithRest needle hay with
    | some rest => atBoundary needle.getLast? rest.head?
    | none => false

/-- Search for a word-bounded occurrence of the needle anywhere in the haystack,
carrying the character preceding the current position. -/
def wholeWordSearch (needle : List Char) : Option Char → List Char → Bool
  | prev, [] => wordBoundedHere needle prev []
  | prev, c :: rest =>
    wordBoundedHere needle prev (c :: rest) || wholeWordSearch needle (some c) rest

/-- Static reference list of known city names, in source order
(SimpleTripParser in trip_parser_simple.py, lines 25-40). -/
def cities : List String := [
  "Melbourne", "Sydney", "Brisbane", "Perth", "Adelaide", "Darwin",
  "Canberra", "Gold Coast", "Cairns", "Hobart", "Newcastle", "Wollongong",
  "Tokyo", "Osaka", "Kyoto", "Seoul", "Bangkok", "Singapore",
  "Hong Kong", "Shanghai", "Beijing", "Taipei", "Manila", "Jakarta",
  "London", "Paris", "Berlin", "Rome", "Barcelona", "Amsterdam",
  "Madrid", "Vienna", "Prague", "Budapest", "Athens", "Lisbon",
  "New York", "Los Angeles", "San Francisco", "Chicago", "Miami", "Boston",
  "Toronto", "Vancouver", "Mexico City", "Buenos Aires", "Rio de Janeiro",
  "Dubai", "Cairo", "Cape Town", "Auckland", "Wellington"]

/-- Rule 1 of city extraction: the first city of the reference list whose lowercased
name occurs in the lowercased query and occurs there between word boundaries
(trip_parser_simple.py lines 84-91). -/
def extractCityRule1 (query : List Char) : Option String :=
  cities.find? fun city =>
    containsSub (lowerStr city.data) (lowerStr query) &&
      wholeWordSearch (lowerStr city.data) none (lowerStr query)

/-- Match a capitalized word [A-Z][a-z]+ at the current position. -/
def matchCapWord (s : List Char) : Option (List Char × List Char) :=
  match s with
  | [] => none
  | c :: rest =>
    if c.isUpper then
      match matchPlus Char.isLower rest with
      | some (run, t) => some (c :: run, t)
      | none => none
    else none

/-- Greedy match of the capture group [A-Z][a-z]+(?:\s+[A-Z][a-z]+)? returning the
captured text; nothing follows the group in contextual pattern (a), so the greedy
optional part needs no backtracking. -/
def matchCapPhraseGreedy (s : List Char) : Option (List Char) :=
  match matchCapWord s with
  | none => none
  | some (w1, rest) =>
    match matchPlus isWS rest with
    | some (ws, rest2) =>
      match matchCapWord rest2 with
      | some (w2, _) => some (w1 ++ ws ++ w2)
      | none => some w1
    | none => some w1

/-- Cue alternatives of contextual pattern (a), in the source alternation order. -/
def cueWords : List (List Char) :=
  ["in".data, "to".data, "visiting".data, "going to".data, "traveling to".data]

/-- Try each cue alternative at the current position; a cue whose literal matches must
be followed by whitespace and the capture group, otherwise the next alternative is
tried at the same position (regex alternation with backtracking). -/
def tryCues : List (List Char) → List Char → Option (List Char)
  | [], _ => none
  | cue :: more, s =>
    match startsWithRest cue s with
    | some rest =>
      match
        (match matchPlus isWS rest with
         | some (_, rest2) => matchCapPhraseGreedy rest2
         | none => none) with
      | some cap => some cap
      | none => tryCues more s
    | none => tryCues more s

/-- Leftmost search for contextual pattern (a), returning the group-1 capture
(trip_parser_simple.py line 95). The pattern needs at least one character, so the
final empty position cannot match. -/
def searchPatA : Option Char → List Char → Option (List Char)
  | _, [] => none
  | prev, c :: rest =>
    match (if atBoundary prev (some c) then tryCues cueWords (c :: rest) else none) with
    | some cap => some cap
    | none => searchPatA (some c) rest

/-- End cues of contextual pattern (b), in the source alternation order. -/
def endCues : List (List Char) := ["for".data, "from".data, "starting".data]

/-- Match the continuation \s+(?:for|from|starting) at the current position. -/
def matchEndCue (s : List Char) : Bool :=
  match matchPlus isWS s with
  | some (_, rest) => endCues.any fun cue => (startsWithRest cue rest).isSome
  | none => false

/-- Match contextual pattern (b) at the current position, returning the group-1
capture. The greedy optional second capture word backtracks to the empty
alternative when the continuation fails after it. -/
def matchPatBHere (prev : Option Char) (s : List Char) : Option (List Char) :=
  if atBoundary prev s.head? then
    match matchCapWord s with
    | none => none
    | some (w1, rest) =>
      match matchPlus isWS rest with
      | some (ws, rest2) =>
        match matchCapWord rest2 with
        | some (w2, rest3) =>
          if matchEndCue rest3 then some (w1 ++ ws ++ w2)
          else if matchEndCue rest then some w1
          else none
        | none => if matchEndCue rest then some w1 else none
      | none => if matchEndCue rest then some w1 else none
  else none

/-- Leftmost search for contextual pattern (b) (trip_parser_simple.py line 96). -/
def searchPatB : Option Char → List Char → Option (List Char)
  | _, [] => none
  | prev, c :: rest =>
    match matchPatBHere prev (c :: rest) with
    | some cap => some cap
    | none => searchPatB (some c) rest

/-- Stoplist of month abbreviations and function words rejected as pattern captures
(trip_parser_simple.py lines 104-106). -/
def stopWords : List (List Char) :=
  ["nov".data, "dec".data, "jan".data, "feb".data, "mar".data, "apr".data,
   "may".data, "jun".data, "jul".data, "aug".data, "sep".data, "oct".data,
   "the".data, "and".data, "for".data, "with".data, "from".data]

/-- Stoplist filter applied to one pattern's capture: a stoplisted capture yields no
city from that pattern and the pattern loop moves on to the next pattern. -/
def checkCandidate (cand : Option (List Char)) : Option (List Char) :=
  match cand with
  | some c => if stopWords.contains (lowerStr c) then none else some c
  | none => none

/-- Rule 2 of city extraction: the two contextual patterns tried in order, each
capture subject to the stoplist (trip_parser_simple.py lines 93-107). -/
def extractCityRule2 (query : List Char) : Option (List Char) :=
  match checkCandidate (searchPatA none query) with
  | some c => some c
  | none => checkCandidate (searchPatB none query)

/-- Whitespace split of the query dropping empty tokens (Python str.split with no
argument), with an accumulator for the current token held reversed. -/
def splitWsGo : List Char → List Char → List (List Char)
  | cur, [] => if cur.isEmpty then [] else [cur.reverse]
  | cur, c :: rest =>
    if isWS c then
      if cur.isEmpty then splitWsGo [] rest else cur.reverse :: splitWsGo [] rest
    else splitWsGo (c :: cur) rest

/-- Whitespace split of a query. -/
def splitWs (s : List Char) : List (List Char) := splitWsGo [] s

/-- Strip punctuation from a token: the substitution removing [^\w\s] keeps exactly
the word characters and the whitespace characters. -/
def cleanWord (w : List Char) : List Char := w.filter fun c => isWordChar c || isWS c

/-- Scan of rule 3 over the whitespace-split tokens (trip_parser_simple.py lines
109-121): a token whose cleaned form starts with an uppercase letter and is longer
than 2 is compared against the known-city list in order, then returned verbatim when
longer than 3; in every other case the scan continues with the next token. -/
def rule3Go : List (List Char) → Option (List Char)
  | [] => none
  | w :: rest =>
    match cleanWord w with
    | [] => rule3Go rest
    | c0 :: cs =>
      if c0.isUpper ∧ (c0 :: cs).length > 2 then
        match cities.find? (fun city => lowerStr (c0 :: cs) == lowerStr city.data) with
        | some city => some city.data
        | none => if (c0 :: cs).length > 3 then some (c0 :: cs) else rule3Go rest
      else rule3Go rest

/-- Rule 3 of city extraction: the heuristic capitalized-word scan. -/
def extractCityRule3 (query : List Char) : Option (List Char) :=
  rule3Go (splitWs query)

/-- City extraction (SimpleTripParser._extract_city): rules 1 to 3 in order,
first success wins. -/
def extractCity (query : List Char) : Option (List Char) :=
  match extractCityRule1 query with
  | some city => some city.data
  | none =>
    match extractCityRule2 query with
    | some c => some c
    | none => extractCityRule3 query

/-- Numeric value of a digit run, as Python int applied to the capture. -/
def digitsToNat (ds : List Char) : Nat := ds.foldl (fun n c => n * 10 + (c.toNat - 48)) 0

/-- Numeric pattern 1 at the current position: for, whitespace, digits, whitespace,
day and an optional trailing s that constrains nothing further. -/
def matchP1Here (s : List Char) : Option Nat :=
  match startsWithRest "for".data s with
  | none => none
  | some r1 =>
    match matchPlus isWS r1 with
    | none => none
    | some (_, r2) =>
      match matchPlus Char.isDigit r2 with
      | none => none
      | some (ds, r3) =>
        match matchPlus isWS r3 with
        | none => none
        | some (_, r4) =>
          match startsWithRest "day".data r4 with
          | none => none
          | some _ => some (digitsToNat ds)

/-- Numeric pattern 2 at the current position: digits, whitespace, day, optional s. -/
def matchP2Here (s : List Char) : Option Nat :=
  match matchPlus Char.isDigit s with
  | none => none
  | some (ds, r1) =>
    match matchPlus isWS r1 with
    | none => none
    | some (_, r2) =>
      match startsWithRest "day".data r2 with
      | none => none
      | some _ => some (digitsToNat ds)

/-- Numeric pattern 3 at the current position: digits, hyphen, day. -/
def matchP3Here (s : List Char) : Option Nat :=
  match matchPlus Char.isDigit s with
  | none => none
  | some (ds, r1) =>
    match startsWithRest "-day".data r1 with
    | none => none
    | some _ => some (digitsToNat ds)

/-- Numeric pattern 4 at the current position: digits, whitespace, day, whitespace,
trip. -/
def matchP4Here (s : List Char) : Option Nat :=
  match matchPlus Char.isDigit s with
  | none => none
  | some (ds, r1) =>
    match matchPlus isWS r1 with
    | none => none
    | some (_, r2) =>
      match startsWithRest "day".data r2 with
      | none => none
      | some r3 =>
        match matchPlus isWS r3 with
        | none => none
        | some (_, r4) =>
          match startsWithRest "trip".data r4 with
          | none => none
          | some _ => some (digitsToNat ds)

/-- Leftmost search of a position matcher over the string (regex search). -/
def scanFor (m : List Char → Option Nat) : List Char → Option Nat
  | [] => m []
  | c :: rest =>
    match m (c :: rest) with
    | some n => some n
    | none => scanFor m rest

/-- Numeric-day patterns in source order (trip_parser_simple.py lines 139-144). -/
def numericPatterns : List (List Char → Option Nat) :=
  [matchP1Here, matchP2Here, matchP3Here, matchP4Here]

/-- Numeric stage of duration extraction: each pattern is searched in turn; a value
is accepted only in [1, 365], an out-of-range value makes the loop continue with the
next pattern (trip_parser_simple.py lines 146-151). -/
def tryNumeric : List (List Char → Option Nat) → List Char → Option Nat
  | [], _ => none
  | p :: rest, q =>
    match scanFor p q with
    | some n => if 1 ≤ n ∧ n ≤ 365 then some n else tryNumeric rest q
    | none => tryNumeric rest q

/-- Match of a, one or 1 followed by whitespace and a literal (week or month) at the
current position. -/
def matchAOne1Here (w : List Char) (s : List Char) : Bool :=
  ["a".data, "one".data, "1".data].any fun lit =>
    match startsWithRest lit s with
    | some r1 =>
      match matchPlus isWS r1 with
      | some (_, r2) => (startsWithRest w r2).isSome
      | none => false
    | none => false

/-- Substring search of a Boolean position matcher. -/
def searchSub (p : List Char → Bool) : List Char → Bool
  | [] => p []
  | c :: rest => p (c :: rest) || searchSub p rest

/-- Duration extraction (SimpleTripParser._extract_duration): the numeric patterns
first, then the weekend, week and month special cases in source order. -/
def extractDuration (query : List Char) : Option Nat :=
  let ql := lowerStr query
  match tryNumeric numericPatterns ql with
  | some n => some n
  | none =>
    if containsSub "weekend".data ql then some 2
    else if containsSub "week".data ql && !containsSub "weekend".data ql
        && searchSub (matchAOne1Here "week".data) ql then some 7
    else if containsSub "month".data ql && searchSub (matchAOne1Here "month".data) ql then
      some 30
    else none

/-- Result of SimpleTripParser.parse. -/
structure ParseResult where
  city : String
  duration_days : Option Nat
deriving DecidableEq, Repr

/-- SimpleTripParser.parse: the extracted city when truthy (non-empty), else the
empty string; the extracted duration when truthy (non-zero), else absent. -/
def parse (query : String) : ParseResult :=
  { city :=
      (match extractCity query.data with
       | some c => if c.isEmpty then "" else String.mk c
       | none => ""),
    duration_days :=
      (match extractDuration query.data with
       | some d => if d == 0 then none else some d
       | none => none) }

/-- HTTP error raised by the endpoint (the FastAPI exception value). -/
structure HTTPError where
  status_code : Nat
  detail : String
deriving DecidableEq, Repr

/-- Response body of the plan endpoint. -/
structure TripPlanResponse (α : Type) where
  city : String
  duration_days : Option Nat
  activities : List α
deriving DecidableEq, Repr

/-- Endpoint plan_trip (trip_planner.py lines 27-72) over an abstract POI provider:
an empty parsed city is rejected with status 400 before any provider call; otherwise
the provider is called with the parsed city, the duration defaulted to 3 when falsy,
and the limit duration times 2 when the duration is truthy else 10; a provider
failure maps to status 500 with the failure description appended. -/
def planTrip {α : Type} (poi : String → Nat → Nat → Except String (List α))
    (query : String) : Except HTTPError (TripPlanResponse α) :=
  let parsed := parse query
  if parsed.city = "" then
    Except.error
      { status_code := 400,
        detail := "Could not extract city from query. Please specify a city name." }
  else
    let lim : Nat :=
      match parsed.duration_days with
      | some d => if d == 0 then 10 else d * 2
      | none => 10
    let durArg : Nat :=
      match parsed.duration_days with
      | some d => if d == 0 then 3 else d
      | none => 3
    match poi parsed.city durArg lim with
    | Except.ok acts =>
      Except.ok
        { city := parsed.city, duration_days := parsed.duration_days,
          activities := acts }
    | Except.error e =>
      Except.error { status_code := 500, detail := "Failed to plan trip: " ++ e }

/-- Recording provider used to observe the arguments the endpoint passes to the POI
call: it succeeds and returns the argument triple as its only activity. -/
def probePoi : String → Nat → Nat → Except String (List (String × Nat × Nat)) :=
  fun c d l => Except.ok [(c, d, l)]

/-- Case-insensitive whole-word occurrence of a known city in a query, the predicate
the claims quantify over. -/
def cityWholeWord (city : String) (query : List Char) : Bool :=
  wholeWordSearch (lowerStr city.data) none (lowerStr query)

/-- Modelled from the spec wording of rule 3 for one token: the token qualifies when
its cleaned form starts with an uppercase letter and has length above 2, and then
yields the canonical spelling on a known-city match, its cleaned form when longer
than 3, and nothing otherwise. -/
def tokenValue (w : List Char) : Option (List Char) :=
  match cleanWord w with
  | [] => none
  | c0 :: cs =>
    if c0.isUpper ∧ (c0 :: cs).length > 2 then
      match cities.find? (fun city => lowerStr (c0 :: cs) == lowerStr city.data) with
      | some city => some city.data
      | none => if (c0 :: cs).length > 3 then some (c0 :: cs) else none
    else none

/-! Helper lemmas shared by the claim theorems. -/

/-- A word-bounded occurrence at the current position implies the literal prefix match. -/
theorem wordBoundedHere_starts {needle : List Char} {prev : Option Char} {hay : List Char}
    (h : wordBoundedHere needle prev hay = true) : (startsWithRest needle hay).isSome = true := by
  unfold wordBoundedHere at h
  cases hsw : startsWithRest needle hay with
  | some rest => rfl
  | none => rw [hsw] at h; simp at h

/-- A whole-word occurrence implies plain substring containment. -/
theorem wholeWordSearch_contains {needle : List Char} :
    ∀ {prev : Option Char} {hay : List Char},
      wholeWordSearch needle prev hay = true → containsSub needle hay = true := by
  intro prev hay
  induction hay generalizing prev with
  | nil =>
    intro h
    unfold wholeWordSearch at h
    unfold containsSub
    exact wordBoundedHere_starts h
  | cons c rest ih =>
    intro h
    unfold wholeWordSearch at h
    unfold containsSub
    rcases Bool.or_eq_true_iff.mp h with h1 | h2
    · rw [wordBoundedHere_starts h1]; rfl
    · rw [ih h2, Bool.or_true]

/-- The predicate of rule 1 coincides pointwise with the whole-word predicate of the
claims: the substring pre-test is implied by the word-bounded search. -/
theorem rule1_pred_eq (city : String) (q : List Char) :
    (containsSub (lowerStr city.data) (lowerStr q) &&
      wholeWordSearch (lowerStr city.data) none (lowerStr q)) = cityWholeWord city q := by
  unfold cityWholeWord
  cases hww : wholeWordSearch (lowerStr city.data) none (lowerStr q) with
  | true => rw [wholeWordSearch_contains hww]; rfl
  | false => rw [Bool.and_false]

/-- Rule 1 is the first reference-list city with a whole-word occurrence. -/
theorem extractCityRule1_eq_find (q : List Char) :
    extractCityRule1 q = cities.find? (fun city => cityWholeWord city q) := by
  unfold extractCityRule1
  congr 1
  funext city
  exact rule1_pred_eq city q

/-- Every city of the reference list is a non-empty string. -/
theorem cities_nonempty : ∀ c ∈ cities, c.data.isEmpty = false := by decide

/-- A rule-1 hit propagates through city extraction. -/
theorem extractCity_of_rule1 {q : List Char} {c : String}
    (h : extractCityRule1 q = some c) : extractCity q = some c.data := by
  unfold extractCity
  rw [h]

/-- The parsed city of a non-empty extraction result. -/
theorem parse_city_of_extract {q : String} {c : List Char}
    (h : extractCity q.data = some c) (hne : c.isEmpty = false) :
    (parse q).city = String.mk c := by
  unfold parse
  simp only [h, hne]
  rfl

/-- The parsed city of a failed extraction. -/
theorem parse_city_of_none {q : String} (h : extractCity q.data = none) :
    (parse q).city = "" := by
  unfold parse
  simp only [h]

/-- The parsed duration of a failed extraction. -/
theorem parse_duration_of_none {q : String} (h : extractDuration q.data = none) :
    (parse q).duration_days = none := by
  unfold parse
  simp only [h]

/-- The parsed duration of a non-zero extraction result. -/
theorem parse_duration_of_extract {q : String} {d : Nat}
    (h : extractDuration q.data = some d) (hd : (d == 0) = false) :
    (parse q).duration_days = some d := by
  unfold parse
  simp only [h, hd]
  rfl

/-- A parsed duration comes from the extractor and is non-zero. -/
theorem parse_duration_inv {q : String} {d : Nat}
    (h : (parse q).duration_days = some d) :
    extractDuration q.data = some d ∧ d ≠ 0 := by
  unfold parse at h
  simp only at h
  split at h
  next d0 hx =>
    split at h
    next hz => cases h
    next hz =>
      cases h
      exact ⟨hx, by simpa using hz⟩
  next hx => cases h

/-- Values accepted by the numeric stage lie in the accepted range. -/
theorem tryNumeric_range :
    ∀ (ps : List (List Char → Option Nat)) (q : List Char) (n : Nat),
      tryNumeric ps q = some n → 1 ≤ n ∧ n ≤ 365 := by
  intro ps
  induction ps with
  | nil => intro q n h; simp [tryNumeric] at h
  | cons p rest ih =>
    intro q n h
    unfold tryNumeric at h
    split at h
    next m hs =>
      split at h
      next hr => cases h; exact hr
      next hr => exact ih q n h
    next hs => exact ih q n h

/-- Every extracted duration lies in the accepted range. -/
theorem extractDuration_range {q : List Char} {n : Nat}
    (h : extractDuration q = some n) : 1 ≤ n ∧ n ≤ 365 := by
  simp only [extractDuration] at h
  split at h
  next m ht =>
    cases h
    exact tryNumeric_range numericPatterns (lowerStr q) n ht
  next ht =>
    split_ifs at h <;> cases h <;> omega

/-- Consuming a literal leaves a suffix: its characters come from the input. -/
theorem startsWithRest_mem :
    ∀ {lit s r : List Char}, startsWithRest lit s = some r → ∀ c ∈ r, c ∈ s := by
  intro lit
  induction lit with
  | nil =>
    intro s r h c hc
    unfold startsWithRest at h
    cases h
    exact hc
  | cons a as ih =>
    intro s r h c hc
    cases s with
    | nil => simp [startsWithRest] at h
    | cons b bs =>
      unfold startsWithRest at h
      split_ifs at h
      exact List.mem_cons_of_mem b (ih h c hc)

/-- The suffix left by a run is part of the input. -/
theorem takeRun_mem (p : Char → Bool) :
    ∀ (s : List Char), ∀ c ∈ (takeRun p s).2, c ∈ s := by
  intro s
  induction s with
  | nil => intro c hc; simp [takeRun] at hc
  | cons a rest ih =>
    intro c hc
    unfold takeRun at hc
    by_cases hp : p a
    · rw [if_pos hp] at hc
      cases hr : takeRun p rest with
      | mk run t =>
        rw [hr] at hc
        simp only at hc
        have := ih c (by rw [hr]; exact hc)
        exact List.mem_cons_of_mem a this
    · rw [if_neg hp] at hc
      exact hc

/-- The suffix left by a one-or-more run is part of the input. -/
theorem matchPlus_mem {p : Char → Bool} {s run t : List Char}
    (h : matchPlus p s = some (run, t)) : ∀ c ∈ t, c ∈ s := by
  unfold matchPlus at h
  split at h
  next => cases h
  next c0 r0 t0 heq =>
    cases h
    intro c hc
    have : c ∈ (takeRun p s).2 := by rw [heq]; exact hc
    exact takeRun_mem p s c this

/-- A capitalized word cannot match in a string without uppercase letters. -/
theorem matchCapWord_none {s : List Char} (h : ∀ c ∈ s, c.isUpper = false) :
    matchCapWord s = none := by
  cases s with
  | nil => rfl
  | cons c rest =>
    simp only [matchCapWord, h c (List.mem_cons_self c rest)]
    simp

/-- The capture group cannot match in a string without uppercase letters. -/
theorem matchCapPhraseGreedy_none {s : List Char} (h : ∀ c ∈ s, c.isUpper = false) :
    matchCapPhraseGreedy s = none := by
  unfold matchCapPhraseGreedy
  rw [matchCapWord_none h]

/-- No cue alternative of pattern (a) can complete in a string without uppercase
letters. -/
theorem tryCues_none {s : List Char} (h : ∀ c ∈ s, c.isUpper = false) :
    ∀ cs, tryCues cs s = none := by
  intro cs
  induction cs with
  | nil => rfl
  | cons cue more ih =>
    cases hsw : startsWithRest cue s with
    | none => simp only [tryCues, hsw]; exact ih
    | some rest =>
      have hrest : ∀ c ∈ rest, c.isUpper = false :=
        fun c hc => h c (startsWithRest_mem hsw c hc)
      cases hmp : matchPlus isWS rest with
      | none => simp only [tryCues, hsw, hmp]; exact ih
      | some pr =>
        cases pr with
        | mk ws rest2 =>
          have hrest2 : ∀ c ∈ rest2, c.isUpper = false :=
            fun c hc => hrest c (matchPlus_mem hmp c hc)
          simp only [tryCues, hsw, hmp, matchCapPhraseGreedy_none hrest2]
          exact ih

/-- Pattern (a) has no match in a string without uppercase letters. -/
theorem searchPatA_none :
    ∀ {s : List Char} (prev : Option Char), (∀ c ∈ s, c.isUpper = false) →
      searchPatA prev s = none := by
  intro s
  induction s with
  | nil => intro prev _; rfl
  | cons c rest ih =>
    intro prev h
    have hrest : ∀ x ∈ rest, x.isUpper = false :=
      fun x hx => h x (List.mem_cons_of_mem c hx)
    simp [searchPatA, tryCues_none h, ih (some c) hrest]

/-- Pattern (b) cannot match at a position in a string without uppercase letters. -/
theorem matchPatBHere_none {s : List Char} (prev : Option Char)
    (h : ∀ c ∈ s, c.isUpper = false) : matchPatBHere prev s = none := by
  simp [matchPatBHere, matchCapWord_none h]

/-- Pattern (b) has no match in a string without uppercase letters. -/
theorem searchPatB_none :
    ∀ {s : List Char} (prev : Option Char), (∀ c ∈ s, c.isUpper = false) →
      searchPatB prev s = none := by
  intro s
  induction s with
  | nil => intro prev _; rfl
  | cons c rest ih =>
    intro prev h
    have hrest : ∀ x ∈ rest, x.isUpper = false :=
      fun x hx => h x (List.mem_cons_of_mem c hx)
    simp [searchPatB, matchPatBHere_none prev h, ih (some c) hrest]

/-- Characters of the tokens produced by the whitespace split come from the
accumulator or the input. -/
theorem splitWsGo_mem :
    ∀ (s cur : List Char) (w : List Char), w ∈ splitWsGo cur s →
      ∀ c ∈ w, c ∈ cur ∨ c ∈ s := by
  intro s
  induction s with
  | nil =>
    intro cur w hw c hc
    unfold splitWsGo at hw
    split_ifs at hw
    · simp at hw
    · simp only [List.mem_singleton] at hw
      subst hw
      exact Or.inl (List.mem_reverse.mp hc)
  | cons a rest ih =>
    intro cur w hw c hc
    unfold splitWsGo at hw
    by_cases ha : isWS a
    · rw [if_pos ha] at hw
      by_cases hcur : cur.isEmpty
      · rw [if_pos hcur] at hw
        rcases ih [] w hw c hc with h0 | h0
        · simp at h0
        · exact Or.inr (List.mem_cons_of_mem a h0)
      · rw [if_neg hcur] at hw
        rcases List.mem_cons.mp hw with h0 | h0
        · subst h0
          exact Or.inl (List.mem_reverse.mp hc)
        · rcases ih [] w h0 c hc with h1 | h1
          · simp at h1
          · exact Or.inr (List.mem_cons_of_mem a h1)
    · rw [if_neg ha] at hw
      rcases ih (a :: cur) w hw c hc with h0 | h0
      · rcases List.mem_cons.mp h0 with h1 | h1
        · exact Or.inr (by rw [h1]; exact List.mem_cons_self a rest)
        · exact Or.inl h1
      · exact Or.inr (List.mem_cons_of_mem a h0)

/-- Rule 3 finds nothing among tokens without uppercase letters. -/
theorem rule3Go_none :
    ∀ (ws : List (List Char)), (∀ w ∈ ws, ∀ c ∈ w, c.isUpper = false) →
      rule3Go ws = none := by
  intro ws
  induction ws with
  | nil => intro _; rfl
  | cons w rest ih =>
    intro h
    have hrest : ∀ w2 ∈ rest, ∀ c ∈ w2, c.isUpper = false :=
      fun w2 hw2 => h w2 (List.mem_cons_of_mem w hw2)
    cases hcw : cleanWord w with
    | nil => simp only [rule3Go, hcw]; exact ih hrest
    | cons c0 cs =>
      have hc0 : c0 ∈ cleanWord w := by rw [hcw]; exact List.mem_cons_self c0 cs
      have hc0w : c0 ∈ w := List.mem_of_mem_filter hc0
      have hcu : c0.isUpper = false := h w (List.mem_cons_self w rest) c0 hc0w
      simp only [rule3Go, hcw]
      rw [if_neg (by simp [hcu])]
      exact ih hrest

/-! Claim theorems. -/

/-- C1: every query containing at least one known reference-list city as a
case-insensitive whole-word match parses to the canonical spelling of the city that
appears earliest in the reference list among those present; in particular, a query
whose only whole-word known city is c parses to the canonical spelling of c,
regardless of the surrounding text. -/
theorem c1_known_city_canonical (q : String) (c : String)
    (hc : c ∈ cities) (hw : cityWholeWord c q.data = true) :
    ∃ cFound, cFound ∈ cities ∧
      cities.find? (fun city => cityWholeWord city q.data) = some cFound ∧
      (parse q).city = cFound ∧
      ((∀ c2 ∈ cities, cityWholeWord c2 q.data = true → c2 = c) → (parse q).city = c) := by
  have hsome : (cities.find? (fun city => cityWholeWord city q.data)).isSome :=
    List.find?_isSome.mpr ⟨c, hc, hw⟩
  obtain ⟨cFound, hfind⟩ := Option.isSome_iff_exists.mp hsome
  have hmem : cFound ∈ cities := List.mem_of_find?_eq_some hfind
  have hr1 : extractCityRule1 q.data = some cFound := by
    rw [extractCityRule1_eq_find]
    exact hfind
  have hcity : (parse q).city = cFound := by
    rw [parse_city_of_extract (extractCity_of_rule1 hr1) (cities_nonempty cFound hmem)]
  refine ⟨cFound, hmem, hfind, hcity, ?_⟩
  intro huniq
  have hpred := List.find?_some hfind
  rw [hcity, huniq cFound hmem (by simpa using hpred)]

/-- C1 witness: the all-lowercase query still parses to the canonical spelling. -/
theorem c1_witness : (parse "3 days in melbourne").city = "Melbourne" := by
  obtain ⟨cF, hmem, hfind, hcity, huniq⟩ :=
    c1_known_city_canonical "3 days in melbourne" "Melbourne" (by decide) (by decide)
  exact huniq (by decide)

/-- C8: parsing is total in this embedding and failure-free: when extraction finds
no city the result carries the empty city string, and when extraction finds no
duration the result carries an absent duration, so absence of a match is a returned
value, never a thrown error halting request processing. -/
theorem c8_parse_total (q : String) :
    (extractCity q.data = none → (parse q).city = "") ∧
    (extractDuration q.data = none → (parse q).duration_days = none) :=
  ⟨fun h => parse_city_of_none h, fun h => parse_duration_of_none h⟩

/-- C8 witness: the empty query parses to the empty city and an absent duration. -/
theorem c8_witness : (parse "").city = "" ∧ (parse "").duration_days = none :=
  ⟨(c8_parse_total "").1 rfl, (c8_parse_total "").2 rfl⟩

/-- C4: a numeric day value outside [1, 365] is never returned as a duration: the
numeric stage skips a pattern whose leftmost match is out of range and continues with
the next pattern, and every parsed duration lies in [1, 365]. -/
theorem c4_duration_in_range :
    (∀ (q : String) (n : Nat), (parse q).duration_days = some n → 1 ≤ n ∧ n ≤ 365) ∧
    (∀ (ql : List Char) (p : List Char → Option Nat)
        (rest : List (List Char → Option Nat)) (n : Nat),
        scanFor p ql = some n → ¬(1 ≤ n ∧ n ≤ 365) →
        tryNumeric (p :: rest) ql = tryNumeric rest ql) := by
  constructor
  · intro q n h
    exact extractDuration_range (parse_duration_inv h).1
  · intro ql p rest n h1 h2
    simp only [tryNumeric, h1]
    rw [if_neg h2]

/-- C4 witness: an accepted duration 3 lies in range, and the pattern whose leftmost
match on the 400-days query is 400 contributes nothing and defers to the rest. -/
theorem c4_witness :
    ((1 : Nat) ≤ 3 ∧ (3 : Nat) ≤ 365) ∧
    tryNumeric (matchP2Here :: [matchP3Here, matchP4Here]) (lowerStr ("400 days".data)) =
      tryNumeric [matchP3Here, matchP4Here] (lowerStr ("400 days".data)) :=
  ⟨c4_duration_in_range.1 "3 days" 3 (by decide),
   c4_duration_in_range.2 (lowerStr ("400 days".data)) matchP2Here
     [matchP3Here, matchP4Here] 400 (by decide) (by decide)⟩

/-- C5: when the numeric stage fails, a query containing weekend parses to duration
2 (never 7 through the week rule), and a query containing week but not weekend
parses to duration 7 exactly when the a-one-1 week sub-pattern occurs; otherwise the
week branch contributes nothing and the result can only be the month branch value 30
or absent. -/
theorem c5_weekend_week_branch (q : String)
    (hnum : tryNumeric numericPatterns (lowerStr q.data) = none) :
    (containsSub ("weekend".data) (lowerStr q.data) = true →
        (parse q).duration_days = some 2) ∧
    (containsSub ("week".data) (lowerStr q.data) = true →
      containsSub ("weekend".data) (lowerStr q.data) = false →
        ((searchSub (matchAOne1Here ("week".data)) (lowerStr q.data) = true →
            (parse q).duration_days = some 7) ∧
         (searchSub (matchAOne1Here ("week".data)) (lowerStr q.data) = false →
            (parse q).duration_days = some 30 ∨ (parse q).duration_days = none))) := by
  refine ⟨?_, ?_⟩
  · intro hwk
    have hx : extractDuration q.data = some 2 := by
      simp [extractDuration, hnum, hwk]
    exact parse_duration_of_extract hx (by decide)
  · intro hw hnw
    refine ⟨?_, ?_⟩
    · intro hs
      have hx : extractDuration q.data = some 7 := by
        simp [extractDuration, hnum, hw, hnw, hs]
      exact parse_duration_of_extract hx (by decide)
    · intro hs
      cases hm : (containsSub ("month".data) (lowerStr q.data) &&
          searchSub (matchAOne1Here ("month".data)) (lowerStr q.data)) with
      | true =>
        have hx : extractDuration q.data = some 30 := by
          simp [extractDuration, hnum, hw, hnw, hs, hm]
        exact Or.inl (parse_duration_of_extract hx (by decide))
      | false =>
        have hx : extractDuration q.data = none := by
          simp [extractDuration, hnum, hw, hnw, hs, hm]
        exact Or.inr (parse_duration_of_none hx)

/-- C5 witness: a weekend query yields 2 and an a-week query yields 7. -/
theorem c5_witness :
    (parse "weekend trip").duration_days = some 2 ∧
    (parse "a week trip").duration_days = some 7 :=
  ⟨(c5_weekend_week_branch "weekend trip" (by decide)).1 (by decide),
   ((c5_weekend_week_branch "a week trip" (by decide)).2 (by decide)
     (by decide)).1 (by decide)⟩

/-- C2 counterexample: on this query pattern (a) matches with the stoplisted capture
Nov, yet extraction returns the capture Quberr of pattern (b), while a direct
fall-through to the rule-3 scan would have produced Xylophone — so a rejected
pattern-(a) capture does NOT skip pattern (b). -/
theorem c2_counterexample :
    searchPatA none ("in Nov, Xylophone trek Quberr for 5 days".data) =
      some ("Nov".data) ∧
    stopWords.contains (lowerStr ("Nov".data)) = true ∧
    extractCityRule1 ("in Nov, Xylophone trek Quberr for 5 days".data) = none ∧
    checkCandidate (searchPatB none ("in Nov, Xylophone trek Quberr for 5 days".data)) =
      some ("Quberr".data) ∧
    (parse "in Nov, Xylophone trek Quberr for 5 days").city = "Quberr" ∧
    extractCityRule3 ("in Nov, Xylophone trek Quberr for 5 days".data) =
      some ("Xylophone".data) :=
  ⟨rfl, rfl, rfl, rfl, rfl, rfl⟩

/-- C2 (amended): when pattern (a) matches but its capture is stoplisted, extraction
tries pattern (b) next — rule 2 returns exactly the stoplist-filtered capture of
pattern (b), and only its failure falls through to the rule-3 scan. -/
theorem c2_pattern_b_tried (q : List Char) (cap : List Char)
    (ha : searchPatA none q = some cap)
    (hstop : stopWords.contains (lowerStr cap) = true) :
    extractCityRule2 q = checkCandidate (searchPatB none q) := by
  have hmem : lowerStr cap ∈ stopWords := by simpa using hstop
  simp [extractCityRule2, checkCandidate, ha, hmem]

/-- C2 witness: on the counterexample query rule 2 equals the filtered pattern-(b)
capture. -/
theorem c2_witness :
    extractCityRule2 ("in Nov, Xylophone trek Quberr for 5 days".data) =
      checkCandidate (searchPatB none ("in Nov, Xylophone trek Quberr for 5 days".data)) :=
  c2_pattern_b_tried ("in Nov, Xylophone trek Quberr for 5 days".data) ("Nov".data) rfl rfl

/-- C3 counterexample: rules 1 and 2 fail on this query, the first qualifying token
Abc has cleaned length exactly 3 and matches no known city, yet parsing returns the
later token Quberr — rule 3 does not stop at the first qualifying token. -/
theorem c3_counterexample :
    extractCityRule1 ("xyz Abc Quberr".data) = none ∧
    extractCityRule2 ("xyz Abc Quberr".data) = none ∧
    splitWs ("xyz Abc Quberr".data) = ["xyz".data, "Abc".data, "Quberr".data] ∧
    cleanWord ("Abc".data) = ("Abc".data) ∧
    ("Abc".data).length = 3 ∧
    cities.find? (fun city => lowerStr ("Abc".data) == lowerStr city.data) = none ∧
    (parse "xyz Abc Quberr").city = "Quberr" :=
  ⟨rfl, rfl, rfl, rfl, rfl, rfl, rfl⟩

/-- Rule 3 agrees with the first-accepted-token reading: the scan returns the value
of the first token on which the per-token rule yields a candidate, skipping tokens
it rejects. -/
theorem rule3Go_eq_findSome? :
    ∀ ws : List (List Char), rule3Go ws = ws.findSome? tokenValue := by
  intro ws
  induction ws with
  | nil => rfl
  | cons w rest ih =>
    cases hcw : cleanWord w with
    | nil =>
      simp only [rule3Go, tokenValue, List.findSome?, hcw]
      exact ih
    | cons c0 cs =>
      by_cases hq : c0.isUpper ∧ (c0 :: cs).length > 2
      · cases hf : cities.find? (fun city => lowerStr (c0 :: cs) == lowerStr city.data) with
        | some city =>
          simp only [rule3Go, tokenValue, List.findSome?, hcw, if_pos hq, hf]
        | none =>
          by_cases hl : (c0 :: cs).length > 3
          · simp only [rule3Go, tokenValue, List.findSome?, hcw, if_pos hq, hf, if_pos hl]
          · simp only [rule3Go, tokenValue, List.findSome?, hcw, if_pos hq, hf, if_neg hl]
            exact ih
      · simp only [rule3Go, tokenValue, List.findSome?, hcw, if_neg hq]
        exact ih

/-- C3 (amended): rule 3 scans the whitespace-split tokens in order and returns the
value of the FIRST token accepted by the per-token rule — canonical spelling on a
known-city match, the cleaned token verbatim when its length exceeds 3 — while a
qualifying token of cleaned length exactly 3 that is no known city is skipped and
the scan continues with later tokens. -/
theorem c3_rule3_first_accepted (q : List Char) :
    extractCityRule3 q = (splitWs q).findSome? tokenValue :=
  rule3Go_eq_findSome? (splitWs q)

/-- C3 witness: on the counterexample query the scan value is the accepted later
token Quberr, on both sides of the amended equation. -/
theorem c3_witness :
    extractCityRule3 ("xyz Abc Quberr".data) = some ("Quberr".data) ∧
    (splitWs ("xyz Abc Quberr".data)).findSome? tokenValue = some ("Quberr".data) :=
  ⟨(c3_rule3_first_accepted ("xyz Abc Quberr".data)).trans rfl, rfl⟩

/-- C10: a query without uppercase letters and without any known city as a
case-insensitive whole word parses to the empty city: rules 2 and 3 can only
produce a candidate beginning with an uppercase letter. -/
theorem c10_lowercase_unknown (q : String)
    (hup : ∀ c ∈ q.data, c.isUpper = false)
    (hcity : ∀ c ∈ cities, cityWholeWord c q.data = false) :
    (parse q).city = "" := by
  have h1 : extractCityRule1 q.data = none := by
    rw [extractCityRule1_eq_find]
    exact List.find?_eq_none.mpr (fun c hc => by simp [hcity c hc])
  have h2 : extractCityRule2 q.data = none := by
    simp [extractCityRule2, checkCandidate, searchPatA_none none hup,
      searchPatB_none none hup]
  have h3 : extractCityRule3 q.data = none := by
    unfold extractCityRule3
    apply rule3Go_none
    intro w hw c hc
    rcases splitWsGo_mem q.data [] w (by simpa [splitWs] using hw) c hc with h0 | h0
    · simp at h0
    · exact hup c h0
  have hx : extractCity q.data = none := by
    simp [extractCity, h1, h2, h3]
  exact parse_city_of_none hx

/-- C10 witness: an all-lowercase query mentioning no known city parses to the
empty city. -/
theorem c10_witness : (parse "going home to see grandma").city = "" :=
  c10_lowercase_unknown "going home to see grandma" (by decide) (by decide)

/-- C6: for a parsed result with a non-empty city the endpoint calls the provider
with the parsed city, the parsed duration defaulted to 3 when absent, and the limit
equal to twice the duration when present and 10 when absent, as observed through the
recording provider. -/
theorem c6_poi_request (q : String) (h : (parse q).city ≠ "") :
    planTrip probePoi q =
      Except.ok
        { city := (parse q).city,
          duration_days := (parse q).duration_days,
          activities := [((parse q).city, ((parse q).duration_days).getD 3,
            (match (parse q).duration_days with | some d => d * 2 | none => 10))] } := by
  simp only [planTrip]
  rw [if_neg h]
  cases hd : (parse q).duration_days with
  | none => simp [probePoi, hd]
  | some d =>
    have hdz : (d == 0) = false := by
      simpa using (parse_duration_inv hd).2
    simp [probePoi, hd, hdz]

/-- C6 witness: a duration-3 query asks for 6 activities and a duration-less query
is covered in the C9 witness; here the recording provider observes (city, 3, 6). -/
theorem c6_witness :
    planTrip probePoi "3 days in Melbourne" =
      Except.ok
        { city := "Melbourne", duration_days := some 3,
          activities := [("Melbourne", 3, 6)] } :=
  (c6_poi_request "3 days in Melbourne" (by decide)).trans rfl

/-- C7: an empty parsed city is rejected with the client error 400 and its fixed
message, for every provider (so the provider is never consulted and the client error
is never turned into the generic server error); with a non-empty parsed city a
failing provider is reported as the server error 500 carrying the failure
description. -/
theorem c7_error_paths (q : String) (e : String) :
    ((parse q).city = "" →
      ∀ (α : Type) (poi : String → Nat → Nat → Except String (List α)),
        planTrip poi q =
          Except.error
            { status_code := 400,
              detail := "Could not extract city from query. Please specify a city name." }) ∧
    ((parse q).city ≠ "" →
      ∀ (α : Type) (poi : String → Nat → Nat → Except String (List α)),
        (∀ c d l, poi c d l = Except.error e) →
        planTrip poi q =
          Except.error
            { status_code := 500, detail := "Failed to plan trip: " ++ e }) := by
  constructor
  · intro h α poi
    simp [planTrip, h]
  · intro h α poi hp
    simp only [planTrip]
    rw [if_neg h]
    simp [hp]

/-- C7 witness: the same always-failing provider produces the 400 client error on a
city-less query and the 500 server error on a city query. -/
theorem c7_witness :
    planTrip (fun _ _ _ => (Except.error "boom" : Except String (List Unit))) "zz" =
      Except.error
        { status_code := 400,
          detail := "Could not extract city from query. Please specify a city name." } ∧
    planTrip (fun _ _ _ => (Except.error "boom" : Except String (List Unit))) "Melbourne" =
      Except.error { status_code := 500, detail := "Failed to plan trip: boom" } :=
  ⟨(c7_error_paths "zz" "boom").1 (by decide) Unit (fun _ _ _ => Except.error "boom"),
   (c7_error_paths "Melbourne" "boom").2 (by decide) Unit
     (fun _ _ _ => Except.error "boom") (fun _ _ _ => rfl)⟩

/-- C9: every successful endpoint response carries exactly the parsed city and the
parsed duration — in particular, when the parser found no duration the response
duration is absent even though the provider was called with the defaults 3 and 10,
as observed through the recording provider. -/
theorem c9_response_duration (q : String) :
    (∀ (α : Type) (poi : String → Nat → Nat → Except String (List α))
        (r : TripPlanResponse α), planTrip poi q = Except.ok r →
        r.city = (parse q).city ∧ r.duration_days = (parse q).duration_days) ∧
    ((parse q).city ≠ "" → (parse q).duration_days = none →
      planTrip probePoi q =
        Except.ok
          { city := (parse q).city, duration_days := none,
            activities := [((parse q).city, 3, 10)] }) := by
  constructor
  · intro α poi r h
    simp only [planTrip] at h
    by_cases hc : (parse q).city = ""
    · rw [if_pos hc] at h
      cases h
    · rw [if_neg hc] at h
      split at h
      next acts hp =>
        cases h
        exact ⟨rfl, rfl⟩
      next err hp => cases h
  · intro hc hd
    simp only [planTrip]
    rw [if_neg hc]
    simp [probePoi, hd]

/-- C9 witness: a duration-less city query is answered with an absent duration while
the recording provider observes the call defaults (city, 3, 10). -/
theorem c9_witness :
    planTrip probePoi "Melbourne" =
      Except.ok
        { city := "Melbourne", duration_days := none,
          activities := [("Melbourne", 3, 10)] } :=
  ((c9_response_duration "Melbourne").2 (by decide) (by decide)).trans rfl

end Iterary
